import Mathlib

/-!
Verification of the systemd service-lifecycle manager of this repository
(source file src/daemon/systemd.ts).

Embedding conventions:
- JavaScript strings are embedded as lists of characters (JStr).
- Effects (filesystem reads, child-process execution, the process-wide
  scope cache) are embedded as explicit parameters and explicit state:
  a systemctl invocation is represented by its observed ExecResult, a
  file read by an Except value, and the module-level scope cache by an
  Option value threaded through calls.
- Helper modules imported by systemd.ts but absent from the sources
  (systemd-unit.ts, runtime-parse.ts, constants.ts) are modelled from the
  spec; each such definition carries a doc comment starting with
  "Modelled from the spec:".
-/

set_option linter.unusedVariables false
set_option linter.unreachableTactic false
set_option linter.unnecessarySeqFocus false
set_option linter.unusedTactic false

abbrev JStr := List Char

/-- Whitespace test used by the embedded JS trim / tokenizer. -/
def isWs (c : Char) : Bool := c = ' ' || c = '\t' || c = '\n' || c = '\r'

/-- Embedded JS String.prototype.trim: drop whitespace at both ends. -/
def jsTrim (l : JStr) : JStr := (l.dropWhile isWs).rdropWhile isWs

/-- Embedded JS String.prototype.toLowerCase (ASCII fragment). -/
def lowerStr (l : JStr) : JStr := l.map Char.toLower

/-- Embedded JS String.prototype.startsWith. -/
def startsWithL : JStr → JStr → Bool
  | [], _ => true
  | _ :: _, [] => false
  | p :: ps, c :: cs => p = c && startsWithL ps cs

/-- Embedded JS String.prototype.includes (contiguous substring test);
the first argument is the haystack. -/
def containsSub : JStr → JStr → Bool
  | [], needle => needle.isEmpty
  | c :: cs, needle => startsWithL needle (c :: cs) || containsSub cs needle

/-- Combined startsWith-and-slice: returns the remainder of the second
argument after the first argument when that one is a prefix. -/
def stripPrefixL : JStr → JStr → Option JStr
  | [], l => some l
  | _ :: _, [] => none
  | p :: ps, c :: cs => if p = c then stripPrefixL ps cs else none

/-- Embedded JS String.prototype.split on a newline. -/
def splitNl : JStr → List JStr
  | [] => [[]]
  | c :: rest =>
    if c = '\n' then [] :: splitNl rest
    else
      match splitNl rest with
      | [] => [[c]]
      | f :: r => (c :: f) :: r

/-- Join lines back with newline separators (Array.prototype.join). -/
def joinNl : List JStr → JStr
  | [] => []
  | [l] => l
  | l :: l2 :: ls => l ++ '\n' :: joinNl (l2 :: ls)

/-- Decimal value of a digit run. -/
def digitsToNat (l : List Char) : Nat :=
  l.foldl (fun acc c => acc * 10 + (c.toNat - 48)) 0

/-- Embedded JS Number.parseInt(s, 10): skip leading whitespace, optional
sign, then the longest digit prefix; none encodes NaN (no digits found). -/
def jsParseInt (s : JStr) : Option Int :=
  let t := s.dropWhile isWs
  let sign : Int × JStr :=
    match t with
    | '-' :: r => (-1, r)
    | '+' :: r => (1, r)
    | r => (1, r)
  let ds := sign.2.takeWhile Char.isDigit
  if ds.isEmpty then none else some (sign.1 * (digitsToNat ds : Int))

/-- Result of one child-process invocation (exec-file.ts execFileUtf8
captures stdout, stderr and the exit code and never throws). -/
structure ExecResult where
  stdout : JStr := []
  stderr : JStr := []
  code : Int := 0
deriving DecidableEq, Repr

/-- Environment slice consumed by systemd.ts (GatewayServiceEnv). -/
structure GatewayServiceEnv where
  OPENCLAW_PROFILE : Option JStr := none
  OPENCLAW_SYSTEMD_UNIT : Option JStr := none
  HOME : Option JStr := none
deriving DecidableEq, Repr

/-- The user-session scope flag passed to systemctl. -/
def userFlag : JStr := "--user".toList

/-- Pure core of resolveSystemctlScopeArgs (systemd.ts lines 159-188).
The module-level cache _cachedScopeArgs is passed in and the updated
cache is returned alongside the result; scopeEnv is the raw value of
process.env.OPENCLAW_SYSTEMD_SCOPE and probe the observed result of
running systemctl with arguments --user status. -/
def resolveSystemctlScopeArgs (cached : Option (List JStr))
    (scopeEnv : Option JStr) (probe : ExecResult) :
    List JStr × Option (List JStr) :=
  match cached with
  | some v => (v, some v)
  | none =>
    let explicit := scopeEnv.map (fun s => lowerStr (jsTrim s))
    if explicit = some ("system".toList) then ([], some [])
    else if explicit = some ("user".toList) then ([userFlag], some [userFlag])
    else if probe.code = 0 then ([userFlag], some [userFlag])
    else
      let detail := lowerStr (probe.stderr ++ ' ' :: probe.stdout)
      let busFailure :=
        containsSub detail ("failed to connect".toList) ||
        containsSub detail ("not been booted".toList) ||
        containsSub detail ("no such file or directory".toList) ||
        containsSub detail ("not supported".toList)
      let r := if busFailure then [] else [userFlag]
      (r, some r)

/-- A sequence of calls to resolveSystemctlScopeArgs within one process:
each call observes its own environment value and probe outcome, and the
cache is threaded from call to call. Returns the list of results. -/
def runScopeCalls (cached : Option (List JStr)) :
    List (Option JStr × ExecResult) → List (List JStr)
  | [] => []
  | (e, p) :: rest =>
    let r := resolveSystemctlScopeArgs cached e p
    r.1 :: runScopeCalls r.2 rest

theorem resolveSystemctlScopeArgs_cache_eq (e : Option JStr) (p : ExecResult) :
    (resolveSystemctlScopeArgs none e p).2 =
      some (resolveSystemctlScopeArgs none e p).1 := by
  unfold resolveSystemctlScopeArgs
  dsimp only
  split
  · rfl
  · split
    · rfl
    · split
      · rfl
      · rfl

theorem resolveSystemctlScopeArgs_cached (v : List JStr) (e : Option JStr)
    (p : ExecResult) : resolveSystemctlScopeArgs (some v) e p = (v, some v) := rfl

/-- C4: with no cache and no explicit override, the probe decides the
scope: exit code 0 gives the user-session scope; otherwise the
system-wide scope is chosen exactly when the lower-cased combined
stderr+stdout contains one of the four bus-failure phrases, and the
user-session scope is kept in every other case. -/
theorem scope_auto_detection (probe : ExecResult) :
    ((resolveSystemctlScopeArgs none none probe).1 = [] ∨
      (resolveSystemctlScopeArgs none none probe).1 = [userFlag]) ∧
    ((resolveSystemctlScopeArgs none none probe).1 = [] ↔
      (probe.code ≠ 0 ∧
        (containsSub (lowerStr (probe.stderr ++ ' ' :: probe.stdout))
            ("failed to connect".toList) = true ∨
          containsSub (lowerStr (probe.stderr ++ ' ' :: probe.stdout))
            ("not been booted".toList) = true ∨
          containsSub (lowerStr (probe.stderr ++ ' ' :: probe.stdout))
            ("no such file or directory".toList) = true ∨
          containsSub (lowerStr (probe.stderr ++ ' ' :: probe.stdout))
            ("not supported".toList) = true))) := by
  unfold resolveSystemctlScopeArgs
  dsimp only
  rw [if_neg (by simp), if_neg (by simp)]
  split
  · constructor
    · right; rfl
    · simp_all [userFlag]
  · constructor
    · split
      · left; rfl
      · right; rfl
    · split
      · simp_all [userFlag] <;> tauto
      · simp_all [userFlag] <;> tauto

/-- C5: once the first call has resolved (from any environment value and
probe outcome), every subsequent call in the process returns the same
decision, whatever environment values or probe outcomes those later calls
would observe; and an explicit override short-circuits the probe: the
value system yields the system scope and user yields the user scope no
matter what the probe would have returned. -/
theorem scope_caching (e1 : Option JStr) (p1 : ExecResult)
    (rest : List (Option JStr × ExecResult)) :
    (runScopeCalls none ((e1, p1) :: rest) =
      (resolveSystemctlScopeArgs none e1 p1).1 ::
        rest.map (fun _ => (resolveSystemctlScopeArgs none e1 p1).1)) ∧
    (∀ p : ExecResult,
      (resolveSystemctlScopeArgs none (some ("system".toList)) p).1 = [] ∧
      (resolveSystemctlScopeArgs none (some ("user".toList)) p).1 = [userFlag]) := by
  constructor
  · have hcache := resolveSystemctlScopeArgs_cache_eq e1 p1
    have hstep : runScopeCalls none ((e1, p1) :: rest) =
        (resolveSystemctlScopeArgs none e1 p1).1 ::
          runScopeCalls (resolveSystemctlScopeArgs none e1 p1).2 rest := rfl
    rw [hstep, hcache]
    clear hstep hcache
    congr 1
    generalize (resolveSystemctlScopeArgs none e1 p1).1 = v
    induction rest with
    | nil => rfl
    | cons hd tl ih =>
      obtain ⟨e, p⟩ := hd
      unfold runScopeCalls
      rw [resolveSystemctlScopeArgs_cached]
      simp only [List.map_cons]
      exact congrArg (v :: ·) ih
  · intro p
    constructor
    · rfl
    · rfl

/-- Split a line at its first equals sign; none when the line has no
equals sign. -/
def splitFirstEq : JStr → Option (JStr × JStr)
  | [] => none
  | c :: cs =>
    if c = '=' then some ([], cs)
    else
      match splitFirstEq cs with
      | some (k, v) => some (c :: k, v)
      | none => none

/-- Modelled from the spec: parseKeyValueOutput of runtime-parse.ts is
absent from the sources; per spec section 4.3 it parses show-style
output, one Key=Value line at a time, into a mapping with lower-cased
keys for case-insensitive lookup. -/
def parseKeyValueOutput (output : JStr) : List (JStr × JStr) :=
  (splitNl output).foldr
    (fun line acc =>
      match splitFirstEq line with
      | some (k, v) => (lowerStr k, v) :: acc
      | none => acc) []

/-- First-match lookup in the parsed key/value mapping (property access
on the JS record object built by parseKeyValueOutput). -/
def lookupKV : List (JStr × JStr) → JStr → Option JStr
  | [], _ => none
  | (k, v) :: rest, key => if k = key then some v else lookupKV rest key

/-- SystemdServiceInfo (systemd.ts lines 99-105). -/
structure SystemdServiceInfo where
  activeState : Option JStr := none
  subState : Option JStr := none
  mainPid : Option Int := none
  execMainStatus : Option Int := none
  execMainCode : Option JStr := none
deriving DecidableEq, Repr

/-- parseSystemdShow (systemd.ts lines 107-137): each field is set only
when its entry is present and truthy; MainPID additionally requires a
finite parse result strictly greater than zero, ExecMainStatus only a
finite parse result. The source assigns the fields one after the other
on a mutable record; the assignments touch disjoint fields, so they are
rendered here as one record literal with one component per field. -/
def parseSystemdShow (output : JStr) : SystemdServiceInfo :=
  let entries := parseKeyValueOutput output
  { activeState :=
      match lookupKV entries ("activestate".toList) with
      | some s => if s.isEmpty then none else some s
      | none => none
    subState :=
      match lookupKV entries ("substate".toList) with
      | some s => if s.isEmpty then none else some s
      | none => none
    mainPid :=
      match lookupKV entries ("mainpid".toList) with
      | some s =>
        if s.isEmpty then none
        else
          match jsParseInt s with
          | some pid => if pid > 0 then some pid else none
          | none => none
      | none => none
    execMainStatus :=
      match lookupKV entries ("execmainstatus".toList) with
      | some s =>
        if s.isEmpty then none
        else
          match jsParseInt s with
          | some st => some st
          | none => none
      | none => none
    execMainCode :=
      match lookupKV entries ("execmaincode".toList) with
      | some s => if s.isEmpty then none else some s
      | none => none }

/-- GatewayServiceRuntime as consumed from service-runtime.ts: the
abstract status plus optional diagnostics. -/
structure GatewayServiceRuntime where
  status : JStr
  state : Option JStr := none
  subState : Option JStr := none
  pid : Option Int := none
  lastExitStatus : Option Int := none
  lastExitReason : Option JStr := none
  detail : Option JStr := none
  missingUnit : Option Bool := none
deriving DecidableEq, Repr

/-- Success path of readSystemdServiceRuntime (systemd.ts lines 407-416):
map the parsed show info onto the abstract status; the ternary chain
activeState equal to active gives running, any other truthy value gives
stopped, and a falsy (absent or empty) value gives unknown. -/
def runtimeOfInfo (parsed : SystemdServiceInfo) : GatewayServiceRuntime :=
  let activeState := parsed.activeState.map lowerStr
  let status :=
    match activeState with
    | some s =>
      if s = "active".toList then "running".toList
      else if s.isEmpty then "unknown".toList
      else "stopped".toList
    | none => "unknown".toList
  { status := status
    state := parsed.activeState
    subState := parsed.subState
    pid := parsed.mainPid
    lastExitStatus := parsed.execMainStatus
    lastExitReason := parsed.execMainCode }

/-- Success path of readSystemdServiceRuntime starting from the raw
stdout of the show query (systemd.ts line 406 then 407-416). -/
def readRuntimeFromShowOutput (stdout : JStr) : GatewayServiceRuntime :=
  runtimeOfInfo (parseSystemdShow stdout)

theorem splitNl_eq_single (l : JStr) (h : '\n' ∉ l) : splitNl l = [l] := by
  induction l with
  | nil => rfl
  | cons c rest ih =>
    have hc : ¬ c = '\n' := fun hc => h (hc ▸ List.mem_cons_self c rest)
    have hrest : '\n' ∉ rest := fun hm => h (List.mem_cons_of_mem c hm)
    unfold splitNl
    rw [if_neg hc, ih hrest]

theorem splitFirstEq_append (p v : JStr) (h : '=' ∉ p) :
    splitFirstEq (p ++ '=' :: v) = some (p, v) := by
  induction p with
  | nil => simp [splitFirstEq]
  | cons c cs ih =>
    have hc : ¬ c = '=' := fun hc => h (hc ▸ List.mem_cons_self c cs)
    have hcs : '=' ∉ cs := fun hm => h (List.mem_cons_of_mem c hm)
    simp only [List.cons_append, splitFirstEq, if_neg hc]
    have hr : cs.append ('=' :: v) = cs ++ '=' :: v := rfl
    rw [hr, ih hcs]

theorem lookupKV_nil (key : JStr) : lookupKV [] key = none := rfl

theorem lookupKV_cons (k v : JStr) (rest : List (JStr × JStr)) (key : JStr) :
    lookupKV ((k, v) :: rest) key =
      if k = key then some v else lookupKV rest key := rfl

theorem lowerStr_eq_nil_iff (s : JStr) : lowerStr s = [] ↔ s = [] := by
  cases s <;> simp [lowerStr]

theorem parseKeyValueOutput_activestate (v : JStr) (hv : '\n' ∉ v) :
    parseKeyValueOutput ("ActiveState=".toList ++ v) =
      [("activestate".toList, v)] := by
  have hsplit : ("ActiveState=".toList ++ v) = ("ActiveState".toList ++ '=' :: v) := rfl
  have hnl : '\n' ∉ ("ActiveState".toList ++ '=' :: v) := by
    intro hm
    rcases List.mem_append.mp hm with h | h
    · revert h; decide
    · rcases List.mem_cons.mp h with h | h
      · exact absurd h (by decide)
      · exact hv h
  rw [hsplit]
  unfold parseKeyValueOutput
  rw [splitNl_eq_single _ hnl]
  simp only [List.foldr_cons, List.foldr_nil]
  rw [splitFirstEq_append _ _ (by decide)]
  simp
  decide

theorem parseSystemdShow_activestate (v : JStr) (hv : '\n' ∉ v) :
    parseSystemdShow ("ActiveState=".toList ++ v) =
      (if v = [] then {} else { activeState := some v } : SystemdServiceInfo) := by
  by_cases h0 : v = []
  · subst h0
    simp only [List.append_nil, if_pos rfl]
    decide
  · have hentries := parseKeyValueOutput_activestate v hv
    have h1 : lookupKV [("activestate".toList, v)] ("activestate".toList) = some v := by
      rw [lookupKV_cons, if_pos rfl]
    have h2 : lookupKV [("activestate".toList, v)] ("substate".toList) = none := by
      rw [lookupKV_cons, if_neg (by decide), lookupKV_nil]
    have h3 : lookupKV [("activestate".toList, v)] ("mainpid".toList) = none := by
      rw [lookupKV_cons, if_neg (by decide), lookupKV_nil]
    have h4 : lookupKV [("activestate".toList, v)] ("execmainstatus".toList) = none := by
      rw [lookupKV_cons, if_neg (by decide), lookupKV_nil]
    have h5 : lookupKV [("activestate".toList, v)] ("execmaincode".toList) = none := by
      rw [lookupKV_cons, if_neg (by decide), lookupKV_nil]
    unfold parseSystemdShow
    dsimp only
    rw [hentries, h1, h2, h3, h4, h5]
    have hne : v.isEmpty = false := by
      cases v with
      | nil => exact absurd rfl h0
      | cons c cs => rfl
    rw [if_neg h0]
    dsimp only
    rw [hne]
    rfl

/-- C2: the success path of readSystemdServiceRuntime maps every raw
ActiveState value totally onto the three abstract statuses: a value whose
lower-casing is active yields running, any other non-empty value yields
stopped, and an absent or empty value yields unknown; and pid,
lastExitStatus and lastExitReason are taken from the parsed MainPID,
ExecMainStatus and ExecMainCode fields whenever those are present. -/
theorem status_mapping_totality :
    (∀ v : JStr, '\n' ∉ v →
      (readRuntimeFromShowOutput ("ActiveState=".toList ++ v)).status =
        (if lowerStr v = "active".toList then "running".toList
          else if v = [] then "unknown".toList
          else "stopped".toList)) ∧
    (readRuntimeFromShowOutput []).status = "unknown".toList ∧
    (∀ parsed : SystemdServiceInfo,
      runtimeOfInfo parsed =
        { status :=
            match parsed.activeState with
            | none => "unknown".toList
            | some s =>
              if lowerStr s = "active".toList then "running".toList
              else if s = [] then "unknown".toList
              else "stopped".toList
          state := parsed.activeState
          subState := parsed.subState
          pid := parsed.mainPid
          lastExitStatus := parsed.execMainStatus
          lastExitReason := parsed.execMainCode }) := by
  have hinfo : ∀ parsed : SystemdServiceInfo,
      runtimeOfInfo parsed =
        { status :=
            match parsed.activeState with
            | none => "unknown".toList
            | some s =>
              if lowerStr s = "active".toList then "running".toList
              else if s = [] then "unknown".toList
              else "stopped".toList
          state := parsed.activeState
          subState := parsed.subState
          pid := parsed.mainPid
          lastExitStatus := parsed.execMainStatus
          lastExitReason := parsed.execMainCode } := by
    intro parsed
    unfold runtimeOfInfo
    dsimp only
    cases hA : parsed.activeState with
    | none => simp
    | some s =>
      simp only [Option.map_some']
      by_cases h1 : lowerStr s = "active".toList
      · simp [h1]
      · rw [if_neg h1, if_neg h1]
        by_cases h2 : s = []
        · subst h2
          simp [lowerStr]
        · have : (lowerStr s).isEmpty = false := by
            cases s with
            | nil => exact absurd rfl h2
            | cons c cs => rfl
          rw [this, if_neg h2]
          simp
  refine ⟨?_, ?_, hinfo⟩
  · intro v hv
    unfold readRuntimeFromShowOutput
    rw [parseSystemdShow_activestate v hv, hinfo]
    by_cases h0 : v = []
    · subst h0
      simp [lowerStr]
    · rw [if_neg h0]
  · decide

theorem status_mapping_totality_witness :
    (readRuntimeFromShowOutput ("ActiveState=".toList ++ "failed".toList)).status =
      "stopped".toList := by
  have h := status_mapping_totality.1 ("failed".toList) (by decide)
  rw [h]
  decide

/-- Embedded JS || on strings: the left operand unless it is falsy
(empty), in which case the right operand. -/
def jsOr (a b : JStr) : JStr := if a.isEmpty then b else a

/-- assertSystemdAvailable (systemd.ts lines 225-237): ok when the scoped
status probe exits 0; otherwise an error whose text distinguishes a
missing systemctl binary (detail mentioning not found) from an
unreachable scope, the latter labelled with the resolved scope. The
thrown Error is embedded as the Except error value carrying the message. -/
def assertSystemdAvailable (scope : List JStr) (statusRes : ExecResult) :
    Except JStr Unit :=
  let scopeLabel := if scope.length > 0 then "user".toList else "system".toList
  if statusRes.code = 0 then .ok ()
  else
    let detail := jsOr statusRes.stderr statusRes.stdout
    if containsSub (lowerStr detail) ("not found".toList) then
      .error ("systemctl not available; systemd services are required on Linux.".toList)
    else
      .error (jsTrim ("systemctl (".toList ++ scopeLabel ++ ") unavailable: ".toList ++
        jsOr detail ("unknown error".toList)))

/-- readSystemdServiceRuntime (systemd.ts lines 377-417) as a function of
the availability-assertion outcome and the observed result of the show
query; String(err) on a thrown Error prefixes the message with Error
and a colon. -/
def readSystemdServiceRuntime (availability : Except JStr Unit)
    (showRes : ExecResult) : GatewayServiceRuntime :=
  match availability with
  | .error err =>
    { status := "unknown".toList, detail := some ("Error: ".toList ++ err) }
  | .ok _ =>
    if showRes.code ≠ 0 then
      let detail := jsTrim (jsOr showRes.stderr showRes.stdout)
      let missing := containsSub (lowerStr detail) ("not found".toList)
      { status := if missing then "stopped".toList else "unknown".toList
        detail := if detail.isEmpty then none else some detail
        missingUnit := some missing }
    else
      runtimeOfInfo (parseSystemdShow showRes.stdout)

/-- C6: readSystemdServiceRuntime never propagates a manager failure as
an exception: a failed availability assertion yields status unknown with
the error text as detail, and a failing show query yields status stopped
with missingUnit true when the trimmed error text contains not found
case-insensitively, and status unknown otherwise. -/
theorem runtime_error_paths (err : JStr) (showRes : ExecResult) :
    (readSystemdServiceRuntime (.error err) showRes =
      { status := "unknown".toList, detail := some ("Error: ".toList ++ err) }) ∧
    (showRes.code ≠ 0 →
      readSystemdServiceRuntime (.ok ()) showRes =
        (if containsSub (lowerStr (jsTrim (jsOr showRes.stderr showRes.stdout)))
            ("not found".toList) then
          { status := "stopped".toList
            missingUnit := some true
            detail :=
              if (jsTrim (jsOr showRes.stderr showRes.stdout)).isEmpty then none
              else some (jsTrim (jsOr showRes.stderr showRes.stdout)) }
        else
          { status := "unknown".toList
            missingUnit := some false
            detail :=
              if (jsTrim (jsOr showRes.stderr showRes.stdout)).isEmpty then none
              else some (jsTrim (jsOr showRes.stderr showRes.stdout)) })) := by
  constructor
  · rfl
  · intro h
    unfold readSystemdServiceRuntime
    rw [if_pos h]
    dsimp only
    split <;> rename_i hm
    · simp [hm]
      exact hm
    · simp [hm]
      rw [Bool.not_eq_true] at hm
      exact hm

theorem runtime_error_paths_witness :
    readSystemdServiceRuntime (.ok ())
        ⟨[], "Unit foo.service not found.".toList, 5⟩ =
      { status := "stopped".toList
        missingUnit := some true
        detail := some ("Unit foo.service not found.".toList) } := by
  have h := (runtime_error_paths []
    ⟨[], "Unit foo.service not found.".toList, 5⟩).2 (by decide)
  rw [h]
  decide

theorem parseKeyValueOutput_singleLine (p v : JStr) (hp : '=' ∉ p)
    (hpn : '\n' ∉ p) (hv : '\n' ∉ v) :
    parseKeyValueOutput (p ++ '=' :: v) = [(lowerStr p, v)] := by
  have hnl : '\n' ∉ (p ++ '=' :: v) := by
    intro hm
    rcases List.mem_append.mp hm with h | h
    · exact hpn h
    · rcases List.mem_cons.mp h with h | h
      · exact absurd h (by decide)
      · exact hv h
  unfold parseKeyValueOutput
  rw [splitNl_eq_single _ hnl]
  simp only [List.foldr_cons, List.foldr_nil]
  rw [splitFirstEq_append _ _ hp]

/-- A strict decimal integer: an optional sign followed by one or more
digits and nothing else; this is the validation discipline the spec
asserts for the numeric show fields. -/
def isStrictInt (s : JStr) : Bool :=
  let t : JStr :=
    match s with
    | '-' :: r => r
    | '+' :: r => r
    | r => r
  !t.isEmpty && t.all Char.isDigit

/-- C8 counterexample: the field value 7junk is not an integer under
strict validation, yet parseSystemdShow accepts it for ExecMainStatus
with the JS parseInt longest-prefix semantics and reports 7 instead of
omitting the field. -/
theorem show_numeric_not_strict :
    isStrictInt ("7junk".toList) = false ∧
    (parseSystemdShow ("ExecMainStatus=7junk".toList)).execMainStatus = some 7 := by
  constructor
  · decide
  · decide

theorem parseSystemdShow_execmainstatus (v : JStr) (hv : '\n' ∉ v) :
    (parseSystemdShow ("ExecMainStatus=".toList ++ v)).execMainStatus =
      (if v = [] then none else jsParseInt v) := by
  have hsplit : ("ExecMainStatus=".toList ++ v) = ("ExecMainStatus".toList ++ '=' :: v) := rfl
  have hentries := parseKeyValueOutput_singleLine ("ExecMainStatus".toList) v
    (by decide) (by decide) hv
  have hlow : lowerStr ("ExecMainStatus".toList) = "execmainstatus".toList := by decide
  rw [hlow] at hentries
  have h1 : lookupKV [("execmainstatus".toList, v)] ("execmainstatus".toList) = some v := by
    rw [lookupKV_cons, if_pos rfl]
  unfold parseSystemdShow
  dsimp only
  rw [hsplit, hentries, h1]
  by_cases h0 : v = []
  · subst h0
    rfl
  · have hne : v.isEmpty = false := by
      cases v with
      | nil => exact absurd rfl h0
      | cons c cs => rfl
    rw [if_neg h0]
    dsimp only
    cases hj : jsParseInt v <;> simp [hne, hj]

theorem parseSystemdShow_mainpid (v : JStr) (hv : '\n' ∉ v) :
    (parseSystemdShow ("MainPID=".toList ++ v)).mainPid =
      (if v = [] then none
        else
          match jsParseInt v with
          | some n => if n > 0 then some n else none
          | none => none) := by
  have hsplit : ("MainPID=".toList ++ v) = ("MainPID".toList ++ '=' :: v) := rfl
  have hentries := parseKeyValueOutput_singleLine ("MainPID".toList) v
    (by decide) (by decide) hv
  have hlow : lowerStr ("MainPID".toList) = "mainpid".toList := by decide
  rw [hlow] at hentries
  have h1 : lookupKV [("mainpid".toList, v)] ("mainpid".toList) = some v := by
    rw [lookupKV_cons, if_pos rfl]
  unfold parseSystemdShow
  dsimp only
  rw [hsplit, hentries, h1]
  by_cases h0 : v = []
  · subst h0
    rfl
  · have hne : v.isEmpty = false := by
      cases v with
      | nil => exact absurd rfl h0
      | cons c cs => rfl
    rw [if_neg h0]
    dsimp only
    cases hj : jsParseInt v <;> simp [hne, hj]

/-- C8 amended: the numeric show fields are parsed with the JS parseInt
longest-valid-prefix semantics rather than strict whole-string
validation: a value with no parseable integer prefix (and, for MainPID,
a non-positive parse result) is omitted rather than defaulted to zero,
while an ExecMainStatus value parsing to 0 is reported as 0. -/
theorem show_numeric_fields (v : JStr) (hv : '\n' ∉ v) :
    ((parseSystemdShow ("ExecMainStatus=".toList ++ v)).execMainStatus =
      (if v = [] then none else jsParseInt v)) ∧
    ((parseSystemdShow ("MainPID=".toList ++ v)).mainPid =
      (if v = [] then none
        else
          match jsParseInt v with
          | some n => if n > 0 then some n else none
          | none => none)) :=
  ⟨parseSystemdShow_execmainstatus v hv, parseSystemdShow_mainpid v hv⟩

theorem show_numeric_fields_witness :
    (parseSystemdShow ("ExecMainStatus=".toList ++ "0".toList)).execMainStatus = some 0 ∧
    (parseSystemdShow ("MainPID=".toList ++ "abc".toList)).mainPid = none := by
  constructor
  · have h := (show_numeric_fields ("0".toList) (by decide)).1
    rw [h]
    decide
  · have h := (show_numeric_fields ("abc".toList) (by decide)).2
    rw [h]
    decide

/-- Embedded JS String.prototype.endsWith; the first argument is the
suffix. -/
def endsWithL (suffix l : JStr) : Bool := startsWithL suffix.reverse l.reverse

/-- Embedded JS slice(0, -suffix.length). -/
def dropSuffixL (l suffix : JStr) : JStr := l.take (l.length - suffix.length)

/-- Modelled from the spec: resolveGatewaySystemdServiceName of
constants.ts is absent from the sources; per the spec the default unit
name is derived deterministically from the environment-supplied profile
identifier, modelled as the gateway base name suffixed with the profile
when one is set. -/
def resolveGatewaySystemdServiceName (profile : Option JStr) : JStr :=
  match profile with
  | some p => "openclaw-gateway-".toList ++ p
  | none => "openclaw-gateway".toList

/-- resolveSystemdServiceName (systemd.ts lines 37-43): a trimmed truthy
OPENCLAW_SYSTEMD_UNIT override is used with a trailing .service suffix
stripped; otherwise the profile-derived default name. -/
def resolveSystemdServiceName (env : GatewayServiceEnv) : JStr :=
  match env.OPENCLAW_SYSTEMD_UNIT.map jsTrim with
  | some o =>
    if o.isEmpty then resolveGatewaySystemdServiceName env.OPENCLAW_PROFILE
    else if endsWithL (".service".toList) o then dropSuffixL o (".service".toList)
    else o
  | none => resolveGatewaySystemdServiceName env.OPENCLAW_PROFILE

/-- Modelled from the spec: resolveHomeDir of paths.ts is absent from
the sources; the unit path lives under the home directory, modelled as
the HOME environment value with a fixed fallback. -/
def resolveHomeDir (env : GatewayServiceEnv) : JStr :=
  match env.HOME with
  | some h => h
  | none => "/root".toList

/-- resolveSystemdUnitPathForName (systemd.ts lines 32-35). -/
def resolveSystemdUnitPathForName (env : GatewayServiceEnv) (name : JStr) : JStr :=
  resolveHomeDir env ++ "/.config/systemd/user/".toList ++ name ++ ".service".toList

/-- resolveSystemdUnitPath (systemd.ts lines 45-47). -/
def resolveSystemdUnitPath (env : GatewayServiceEnv) : JStr :=
  resolveSystemdUnitPathForName env (resolveSystemdServiceName env)

/-- The unit name installSystemdService passes to the enable and restart
actions (systemd.ts lines 272-273); uninstallSystemdService builds the
name for its disable action with the same expression (lines 316-317). -/
def installActionUnitName (env : GatewayServiceEnv) : JStr :=
  resolveGatewaySystemdServiceName env.OPENCLAW_PROFILE ++ ".service".toList

/-- C3: evaluating the install/uninstall name derivations at an
environment with the explicit unit-name override set: the enable,
restart and disable actions receive the profile-derived default name
while the unit file written and deleted carries the override-derived
base name, so the two derivations disagree, contradicting the claim
that both come from the same UnitIdentity. -/
theorem install_unit_name_mismatch :
    installActionUnitName
        { OPENCLAW_PROFILE := none
          OPENCLAW_SYSTEMD_UNIT := some ("custom-unit".toList)
          HOME := some ("/home/u".toList) } =
      "openclaw-gateway.service".toList ∧
    resolveSystemdUnitPath
        { OPENCLAW_PROFILE := none
          OPENCLAW_SYSTEMD_UNIT := some ("custom-unit".toList)
          HOME := some ("/home/u".toList) } =
      "/home/u/.config/systemd/user/custom-unit.service".toList ∧
    installActionUnitName
        { OPENCLAW_PROFILE := none
          OPENCLAW_SYSTEMD_UNIT := some ("custom-unit".toList)
          HOME := some ("/home/u".toList) } ≠
      resolveSystemdServiceName
          { OPENCLAW_PROFILE := none
            OPENCLAW_SYSTEMD_UNIT := some ("custom-unit".toList)
            HOME := some ("/home/u".toList) } ++ ".service".toList := by
  refine ⟨by decide, by decide, by decide⟩

/-- One observable step of installSystemdService after the availability
assertion: the write of the unit file, then the manager actions. -/
inductive InstallEvent where
  | writeUnit (path : JStr)
  | run (action : JStr)
deriving DecidableEq, Repr

/-- Results the manager would return for the three install-time actions. -/
structure ManagerResults where
  reload : ExecResult
  enable : ExecResult
  restart : ExecResult
deriving DecidableEq, Repr

/-- installSystemdService (systemd.ts lines 249-287) after a successful
availability assertion, as a function of the observed manager results:
writes the unit file, then runs daemon-reload, enable and restart in
that order; a non-zero exit raises an Error carrying that step's stderr
(or stdout when stderr is empty) and skips the remaining steps. Returns
the executed events together with the outcome (the unit path on
success). -/
def installSystemdService (env : GatewayServiceEnv) (mgr : ManagerResults) :
    List InstallEvent × Except JStr JStr :=
  let unitPath := resolveSystemdUnitPath env
  let unitName := installActionUnitName env
  let ev1 := [InstallEvent.writeUnit unitPath, InstallEvent.run ("daemon-reload".toList)]
  if mgr.reload.code ≠ 0 then
    (ev1, .error (jsTrim ("systemctl daemon-reload failed: ".toList ++
      jsOr mgr.reload.stderr mgr.reload.stdout)))
  else
    let ev2 := ev1 ++ [InstallEvent.run ("enable ".toList ++ unitName)]
    if mgr.enable.code ≠ 0 then
      (ev2, .error (jsTrim ("systemctl enable failed: ".toList ++
        jsOr mgr.enable.stderr mgr.enable.stdout)))
    else
      let ev3 := ev2 ++ [InstallEvent.run ("restart ".toList ++ unitName)]
      if mgr.restart.code ≠ 0 then
        (ev3, .error (jsTrim ("systemctl restart failed: ".toList ++
          jsOr mgr.restart.stderr mgr.restart.stdout)))
      else (ev3, .ok unitPath)

/-- C7: after the unit file is written, the manager actions run in the
fixed order daemon-reload, enable, restart; the first non-zero exit
aborts the remaining steps and surfaces that step's captured
stderr/stdout, and in every outcome the write of the unit file remains
the first executed event (the already-written file is left in place). -/
theorem install_action_sequence (env : GatewayServiceEnv) (mgr : ManagerResults) :
    ((installSystemdService env mgr).1.head? =
      some (InstallEvent.writeUnit (resolveSystemdUnitPath env))) ∧
    (mgr.reload.code ≠ 0 →
      installSystemdService env mgr =
        ([InstallEvent.writeUnit (resolveSystemdUnitPath env),
          InstallEvent.run ("daemon-reload".toList)],
         .error (jsTrim ("systemctl daemon-reload failed: ".toList ++
           jsOr mgr.reload.stderr mgr.reload.stdout)))) ∧
    (mgr.reload.code = 0 → mgr.enable.code ≠ 0 →
      installSystemdService env mgr =
        ([InstallEvent.writeUnit (resolveSystemdUnitPath env),
          InstallEvent.run ("daemon-reload".toList),
          InstallEvent.run ("enable ".toList ++ installActionUnitName env)],
         .error (jsTrim ("systemctl enable failed: ".toList ++
           jsOr mgr.enable.stderr mgr.enable.stdout)))) ∧
    (mgr.reload.code = 0 → mgr.enable.code = 0 → mgr.restart.code ≠ 0 →
      installSystemdService env mgr =
        ([InstallEvent.writeUnit (resolveSystemdUnitPath env),
          InstallEvent.run ("daemon-reload".toList),
          InstallEvent.run ("enable ".toList ++ installActionUnitName env),
          InstallEvent.run ("restart ".toList ++ installActionUnitName env)],
         .error (jsTrim ("systemctl restart failed: ".toList ++
           jsOr mgr.restart.stderr mgr.restart.stdout)))) ∧
    (mgr.reload.code = 0 → mgr.enable.code = 0 → mgr.restart.code = 0 →
      installSystemdService env mgr =
        ([InstallEvent.writeUnit (resolveSystemdUnitPath env),
          InstallEvent.run ("daemon-reload".toList),
          InstallEvent.run ("enable ".toList ++ installActionUnitName env),
          InstallEvent.run ("restart ".toList ++ installActionUnitName env)],
         .ok (resolveSystemdUnitPath env))) := by
  unfold installSystemdService
  dsimp only
  refine ⟨?_, ?_, ?_, ?_, ?_⟩
  · split
    · rfl
    · split
      · rfl
      · split
        · rfl
        · rfl
  · intro h1
    rw [if_pos h1]
  · intro h1 h2
    rw [if_neg (by simp [h1]), if_pos h2]
    simp
  · intro h1 h2 h3
    rw [if_neg (by simp [h1]), if_neg (by simp [h2]), if_pos h3]
    simp
  · intro h1 h2 h3
    rw [if_neg (by simp [h1]), if_neg (by simp [h2]), if_neg (by simp [h3])]
    simp

theorem install_action_sequence_witness :
    installSystemdService {}
        { reload := { code := 0 }
          enable := { stderr := "boom".toList, code := 1 }
          restart := { code := 0 } } =
      ([InstallEvent.writeUnit
          ("/root/.config/systemd/user/openclaw-gateway.service".toList),
        InstallEvent.run ("daemon-reload".toList),
        InstallEvent.run ("enable openclaw-gateway.service".toList)],
       .error ("systemctl enable failed: boom".toList)) := by
  have h := (install_action_sequence {}
    { reload := { code := 0 }
      enable := { stderr := "boom".toList, code := 1 }
      restart := { code := 0 } }).2.2.1 (by decide) (by decide)
  rw [h]
  rfl

/-- LegacySystemdUnit (systemd.ts lines 418-423); the field recording
file existence is named fileExists because its source name is a Lean
keyword. -/
structure LegacySystemdUnit where
  name : JStr
  unitPath : JStr
  enabled : Bool
  fileExists : Bool
deriving DecidableEq, Repr

/-- Modelled from the spec: LEGACY_GATEWAY_SYSTEMD_SERVICE_NAMES of
constants.ts is absent from the sources; per the spec it is a fixed
list of historical unit names. -/
def LEGACY_GATEWAY_SYSTEMD_SERVICE_NAMES : List JStr :=
  ["clawdbot-gateway".toList, "moltbot-gateway".toList]

/-- Observable environment of the legacy scan: which unit files exist
(fs.access success per path), whether the manager is reachable
(isSystemctlAvailable), and which unit names report enabled (exit code 0
of the is-enabled query per unit name). -/
structure LegacyWorld where
  fileExists : JStr → Bool
  systemctlAvailable : Bool
  isEnabled : JStr → Bool

/-- Loop body of findLegacySystemdUnits (systemd.ts lines 437-454): for
each legacy name compute its path, probe existence, query enabled-ness
only when the manager is available, and push a record only when either
probe is positive. -/
def findLegacyLoop (env : GatewayServiceEnv) (w : LegacyWorld) :
    List JStr → List LegacySystemdUnit
  | [] => []
  | name :: rest =>
    let unitPath := resolveSystemdUnitPathForName env name
    let exists0 := w.fileExists unitPath
    let enabled :=
      if w.systemctlAvailable then w.isEnabled (name ++ ".service".toList) else false
    (if exists0 || enabled then
      [{ name := name, unitPath := unitPath, enabled := enabled, fileExists := exists0 }]
    else []) ++ findLegacyLoop env w rest

/-- findLegacySystemdUnits (systemd.ts lines 434-456). -/
def findLegacySystemdUnits (env : GatewayServiceEnv) (w : LegacyWorld) :
    List LegacySystemdUnit :=
  findLegacyLoop env w LEGACY_GATEWAY_SYSTEMD_SERVICE_NAMES

theorem findLegacyLoop_sound (env : GatewayServiceEnv) (w : LegacyWorld) :
    ∀ names : List JStr, ∀ r ∈ findLegacyLoop env w names,
      (r.fileExists = true ∨ r.enabled = true) ∧
      r.fileExists = w.fileExists (resolveSystemdUnitPathForName env r.name) ∧
      r.enabled = (if w.systemctlAvailable then
        w.isEnabled (r.name ++ ".service".toList) else false) ∧
      (w.systemctlAvailable = false → r.enabled = false) ∧
      r.name ∈ names := by
  intro names
  induction names with
  | nil =>
    intro r hr
    simp [findLegacyLoop] at hr
  | cons name rest ih =>
    intro r hr
    unfold findLegacyLoop at hr
    dsimp only at hr
    rcases List.mem_append.mp hr with h | h
    · by_cases hc : (w.fileExists (resolveSystemdUnitPathForName env name) ||
          (if w.systemctlAvailable then w.isEnabled (name ++ ".service".toList)
            else false)) = true
      · rw [if_pos hc] at h
        rw [List.mem_singleton] at h
        subst h
        refine ⟨?_, rfl, rfl, ?_, List.mem_cons_self _ _⟩
        · simpa using hc
        · intro hav
          simp [hav]
      · rw [if_neg hc] at h
        exact absurd h (List.not_mem_nil r)
    · obtain ⟨h1, h2, h3, h4, h5⟩ := ih r h
      exact ⟨h1, h2, h3, h4, List.mem_cons_of_mem _ h5⟩

theorem findLegacyLoop_enabled_independent (env : GatewayServiceEnv)
    (fe : JStr → Bool) (en1 en2 : JStr → Bool) :
    ∀ names, findLegacyLoop env ⟨fe, false, en1⟩ names =
      findLegacyLoop env ⟨fe, false, en2⟩ names := by
  intro names
  induction names with
  | nil => rfl
  | cons name rest ih =>
    unfold findLegacyLoop
    dsimp only
    rw [ih]
    simp

/-- C9: every record emitted by findLegacySystemdUnits has its unit file
on disk or the manager reporting it enabled, records its actual
file-existence probe, has its enabled flag equal to the is-enabled
query's answer when the manager is available and to false when it is
not, and carries one of the fixed legacy names; a legacy name whose
unit file does not exist and which the manager does not report enabled
never appears in the result; and with the manager unavailable the
result does not depend on the enabled-query oracle at all, so that
query is never consulted. -/
theorem legacy_discovery_exclusion (env : GatewayServiceEnv) (w : LegacyWorld) :
    (∀ r ∈ findLegacySystemdUnits env w,
      (r.fileExists = true ∨ r.enabled = true) ∧
      r.fileExists = w.fileExists (resolveSystemdUnitPathForName env r.name) ∧
      r.enabled = (if w.systemctlAvailable then
        w.isEnabled (r.name ++ ".service".toList) else false) ∧
      (w.systemctlAvailable = false → r.enabled = false) ∧
      r.name ∈ LEGACY_GATEWAY_SYSTEMD_SERVICE_NAMES) ∧
    (∀ name : JStr,
      w.fileExists (resolveSystemdUnitPathForName env name) = false →
      (w.systemctlAvailable = true → w.isEnabled (name ++ ".service".toList) = false) →
      ∀ r ∈ findLegacySystemdUnits env w, r.name ≠ name) ∧
    (∀ en1 en2 : JStr → Bool, w.systemctlAvailable = false →
      findLegacySystemdUnits env
          { fileExists := w.fileExists, systemctlAvailable := false, isEnabled := en1 } =
        findLegacySystemdUnits env
          { fileExists := w.fileExists, systemctlAvailable := false, isEnabled := en2 }) := by
  refine ⟨findLegacyLoop_sound env w LEGACY_GATEWAY_SYSTEMD_SERVICE_NAMES, ?_, ?_⟩
  · intro name hfe hen r hr heq
    obtain ⟨h1, h2, h3, h4, h5⟩ :=
      findLegacyLoop_sound env w LEGACY_GATEWAY_SYSTEMD_SERVICE_NAMES r hr
    rw [heq] at h2 h3
    rcases h1 with h1 | h1
    · rw [h2, hfe] at h1
      exact Bool.false_ne_true h1
    · rw [h3] at h1
      by_cases hav : w.systemctlAvailable = true
      · rw [if_pos hav, hen hav] at h1
        exact Bool.false_ne_true h1
      · rw [if_neg hav] at h1
        exact Bool.false_ne_true h1
  · intro en1 en2 hav
    exact findLegacyLoop_enabled_independent env w.fileExists en1 en2 _

theorem legacy_discovery_exclusion_witness :
    ({ name := "clawdbot-gateway".toList,
       unitPath := "/root/.config/systemd/user/clawdbot-gateway.service".toList,
       enabled := false, fileExists := true } : LegacySystemdUnit).fileExists = true ∨
    ({ name := "clawdbot-gateway".toList,
       unitPath := "/root/.config/systemd/user/clawdbot-gateway.service".toList,
       enabled := false, fileExists := true } : LegacySystemdUnit).enabled = true := by
  have h := (legacy_discovery_exclusion {}
      ⟨fun _ => true, true, fun _ => false⟩).1
    { name := "clawdbot-gateway".toList,
      unitPath := "/root/.config/systemd/user/clawdbot-gateway.service".toList,
      enabled := false, fileExists := true }
    (by decide)
  exact h.1

/-- The single-quote character, named to keep apostrophes out of the
source text. -/
def squote : Char := Char.ofNat 39

/-- Quote state of the ExecStart tokenizer: outside quotes, inside
single quotes, inside double quotes, or right after a backslash inside
double quotes. -/
inductive QuoteMode where
  | plain
  | single
  | double
  | escape
deriving DecidableEq, Repr

/-- Modelled from the spec: parseSystemdExecStart of systemd-unit.ts is
absent from the sources; per spec 4.2 the ExecStart value is tokenized
honoring shell-style quoting and escape sequences: whitespace separates
tokens, single- and double-quoted regions join into the current token,
and inside double quotes a backslash escapes the next character (with a
backslash before n denoting a newline). none encodes a malformed value
(unterminated quote or trailing escape). -/
def tokenize (l : JStr) (mode : QuoteMode) (cur : Option JStr) (acc : List JStr) :
    Option (List JStr) :=
  match l with
  | [] =>
    match mode with
    | .plain => some (acc ++ (match cur with | some t => [t] | none => []))
    | _ => none
  | c :: cs =>
    match mode with
    | .plain =>
      if c = '"' then tokenize cs .double (some (cur.getD [])) acc
      else if c = squote then tokenize cs .single (some (cur.getD [])) acc
      else if isWs c then
        match cur with
        | some t => tokenize cs .plain none (acc ++ [t])
        | none => tokenize cs .plain none acc
      else tokenize cs .plain (some (cur.getD [] ++ [c])) acc
    | .single =>
      if c = squote then tokenize cs .plain cur acc
      else tokenize cs .single (some (cur.getD [] ++ [c])) acc
    | .double =>
      if c = '"' then tokenize cs .plain cur acc
      else if c = '\\' then tokenize cs .escape cur acc
      else tokenize cs .double (some (cur.getD [] ++ [c])) acc
    | .escape =>
      tokenize cs .double (some (cur.getD [] ++ [if c = 'n' then '\n' else c])) acc

/-- Tokenization of an ExecStart value; a malformed value contributes no
tokens. -/
def parseSystemdExecStart (execStart : JStr) : List JStr :=
  (tokenize execStart .plain none []).getD []

/-- Loop of the escape decoding used inside double quotes; the flag
records a pending backslash. -/
def unescapeLoop (pending : Bool) : JStr → JStr
  | [] => []
  | c :: rest =>
    if pending then (if c = 'n' then '\n' else c) :: unescapeLoop false rest
    else if c = '\\' then unescapeLoop true rest
    else c :: unescapeLoop false rest

/-- Inverse of the escape encoding used inside double quotes. -/
def unescapeChars (l : JStr) : JStr := unescapeLoop false l

/-- Modelled from the spec: parseSystemdEnvAssignment of systemd-unit.ts
is absent from the sources; per spec 4.2 an Environment assignment is
KEY=VALUE with the value rendered in quotes when needed, so decoding
splits at the first equals sign, rejects an empty key, and removes one
level of surrounding double quotes (decoding the escapes inside). -/
def parseSystemdEnvAssignment (raw : JStr) : Option (JStr × JStr) :=
  match splitFirstEq raw with
  | none => none
  | some (k, v) =>
    if k.isEmpty then none
    else if v.head? = some '"' ∧ v.getLast? = some '"' ∧ 2 ≤ v.length then
      some (k, unescapeChars v.tail.dropLast)
    else some (k, v)

/-- GatewayServiceCommandConfig as consumed from service-types.ts: the
command line, optional working directory, environment entries (a JS
object, embedded as its insertion-ordered unique-key entry list, with
the empty list standing for the absent field) and the provenance path. -/
structure GatewayServiceCommandConfig where
  programArguments : List JStr
  workingDirectory : Option JStr := none
  environment : List (JStr × JStr) := []
  sourcePath : Option JStr := none
deriving DecidableEq, Repr

/-- JS object assignment environment[key] = value: overwrite in place
when the key exists, append otherwise. -/
def insertEnv : List (JStr × JStr) → JStr → JStr → List (JStr × JStr)
  | [], k, v => [(k, v)]
  | (k0, v0) :: rest, k, v =>
    if k0 = k then (k0, v) :: rest else (k0, v0) :: insertEnv rest k v

/-- Accumulator of the line scan in readSystemdServiceExecStart. -/
structure UnitParseState where
  execStart : JStr := []
  workingDirectory : JStr := []
  environment : List (JStr × JStr) := []
deriving DecidableEq, Repr

/-- Dispatch of the line loop of readSystemdServiceExecStart on the
already-trimmed line (systemd.ts lines 68-83): skip blank and comment
lines, recognize the ExecStart, WorkingDirectory and Environment
prefixes in that order. -/
def processTrimmedLine (st : UnitParseState) (line : JStr) : UnitParseState :=
  if line.isEmpty then st
  else if startsWithL ("#".toList) line then st
  else
    match stripPrefixL ("ExecStart=".toList) line with
    | some rest => { st with execStart := jsTrim rest }
    | none =>
      match stripPrefixL ("WorkingDirectory=".toList) line with
      | some rest => { st with workingDirectory := jsTrim rest }
      | none =>
        match stripPrefixL ("Environment=".toList) line with
        | some rest =>
          match parseSystemdEnvAssignment (jsTrim rest) with
          | some kv => { st with environment := insertEnv st.environment kv.1 kv.2 }
          | none => st
        | none => st

/-- One iteration of the line loop of readSystemdServiceExecStart
(systemd.ts lines 67-83): trim the raw line, then dispatch on it. -/
def processUnitLine (st : UnitParseState) (rawLine : JStr) : UnitParseState :=
  processTrimmedLine st (jsTrim rawLine)

/-- The full line scan of readSystemdServiceExecStart over the unit file
content (systemd.ts lines 64-83). -/
def parseUnitContent (content : JStr) : UnitParseState :=
  (splitNl content).foldl processUnitLine {}

/-- readSystemdServiceExecStart (systemd.ts lines 58-97) as a function
of the unit path and of the outcome of the file read: any read failure
is caught and yields null (none), as does a successfully read file whose
scan found no ExecStart value. -/
def readSystemdServiceExecStart (unitPath : JStr) (fileRead : Except JStr JStr) :
    Option GatewayServiceCommandConfig :=
  match fileRead with
  | .error _ => none
  | .ok content =>
    let st := parseUnitContent content
    if st.execStart.isEmpty then none
    else
      some { programArguments := parseSystemdExecStart st.execStart
             workingDirectory :=
               if st.workingDirectory.isEmpty then none else some st.workingDirectory
             environment := st.environment
             sourcePath := some unitPath }

/-- C10: readSystemdServiceExecStart yields none for every filesystem
failure (the catch block swallows any exception), exactly as it does for
a readable file whose scan finds no ExecStart line, so the two cases are
indistinguishable to the caller. -/
theorem read_execstart_error_opacity (unitPath : JStr) (e : JStr) (content : JStr)
    (h : (parseUnitContent content).execStart = []) :
    readSystemdServiceExecStart unitPath (.error e) = none ∧
    readSystemdServiceExecStart unitPath (.ok content) = none ∧
    readSystemdServiceExecStart unitPath (.ok content) =
      readSystemdServiceExecStart unitPath (.error e) := by
  refine ⟨rfl, ?_, ?_⟩ <;> simp [readSystemdServiceExecStart, h]

theorem read_execstart_error_opacity_witness :
    readSystemdServiceExecStart ("/tmp/u.service".toList)
      (.ok ("[Unit]\nDescription=x".toList)) = none := by
  have h := (read_execstart_error_opacity ("/tmp/u.service".toList)
    ("ENOENT".toList) ("[Unit]\nDescription=x".toList) (by decide)).2.1
  exact h

/-- Does an argument or environment value need quoting when rendered:
empty, or containing whitespace, a quote character or a backslash. -/
def needsQuoting (s : JStr) : Bool :=
  s.isEmpty || s.any (fun c => isWs c || c = '"' || c = squote || c = '\\')

/-- Escape for a double-quoted region: backslash-escape double quotes
and backslashes, and render a newline as a backslash followed by n. -/
def escapeChars : JStr → JStr
  | [] => []
  | c :: cs =>
    (if c = '"' then ['\\', '"']
      else if c = '\\' then ['\\', '\\']
      else if c = '\n' then ['\\', 'n']
      else [c]) ++ escapeChars cs

/-- Modelled from the spec: the shell-safe quoting of buildSystemdUnit
(systemd-unit.ts, absent from the sources): any argument containing
whitespace or quote characters (together with the empty and
backslash-containing ones, which equally fail to survive bare) is
wrapped in double quotes and escaped so that re-tokenizing reproduces
the original argument exactly. -/
def quoteArg (s : JStr) : JStr :=
  if needsQuoting s then '"' :: (escapeChars s ++ ['"']) else s

/-- Join of the quoted arguments with single spaces. -/
def joinWithSpace : List JStr → JStr
  | [] => []
  | [a] => a
  | a :: b :: rest => a ++ ' ' :: joinWithSpace (b :: rest)

/-- Modelled from the spec: buildSystemdUnit of systemd-unit.ts is
absent from the sources; per spec 4.2 and section 6 the unit text has a
Description line, a single ExecStart line joining the shell-quoted
arguments, an optional WorkingDirectory line, one Environment line per
entry rendered as KEY=VALUE with the value quoted when needed, plus
section headers, which the decoder ignores. -/
def buildSystemdUnit (description : JStr) (programArguments : List JStr)
    (workingDirectory : Option JStr) (environment : List (JStr × JStr)) : JStr :=
  joinNl
    (["[Unit]".toList,
      "Description=".toList ++ description,
      [],
      "[Service]".toList,
      "ExecStart=".toList ++ joinWithSpace (programArguments.map quoteArg)] ++
    (match workingDirectory with
      | some wd => ["WorkingDirectory=".toList ++ wd]
      | none => []) ++
    environment.map (fun kv => "Environment=".toList ++ (kv.1 ++ '=' :: quoteArg kv.2)) ++
    [[], "[Install]".toList, "WantedBy=default.target".toList, []])

theorem tokenize_escape_consume (a : JStr) : ∀ (rest t : JStr) (acc : List JStr),
    tokenize (escapeChars a ++ '"' :: rest) QuoteMode.double (some t) acc =
      tokenize rest QuoteMode.plain (some (t ++ a)) acc := by
  induction a with
  | nil =>
    intro rest t acc
    simp [escapeChars, tokenize]
  | cons c cs ih =>
    intro rest t acc
    by_cases h1 : c = '"'
    · subst h1
      simp [escapeChars, tokenize, ih,
        (by decide : ¬('\\' : Char) = '"'),
        (by decide : ¬('"' : Char) = 'n')]
    · by_cases h2 : c = '\\'
      · subst h2
        simp [escapeChars, tokenize, ih,
          (by decide : ¬('\\' : Char) = '"'),
          (by decide : ¬('\\' : Char) = 'n')]
      · by_cases h3 : c = '\n'
        · subst h3
          simp [escapeChars, tokenize, ih,
            (by decide : ¬('\\' : Char) = '"'),
            (by decide : ¬('\n' : Char) = '"')]
        · simp [escapeChars, tokenize, ih, h1, h2, h3]

theorem tokenize_plain_consume (a : JStr) : ∀ (rest : JStr) (cur : Option JStr)
    (acc : List JStr), a ≠ [] →
    (∀ c ∈ a, isWs c = false ∧ c ≠ '"' ∧ c ≠ squote) →
    tokenize (a ++ rest) QuoteMode.plain cur acc =
      tokenize rest QuoteMode.plain (some (cur.getD [] ++ a)) acc := by
  induction a with
  | nil =>
    intro rest cur acc ha hsafe
    exact absurd rfl ha
  | cons c cs ih =>
    intro rest cur acc ha hsafe
    obtain ⟨hw, hq, hs⟩ := hsafe c (List.mem_cons_self c cs)
    by_cases hcs : cs = []
    · subst hcs
      simp [tokenize, hq, hs, hw]
    · have ih2 := ih rest (some (cur.getD [] ++ [c])) acc hcs
        (fun d hd => hsafe d (List.mem_cons_of_mem c hd))
      simp only [List.cons_append]
      rw [show tokenize (c :: (cs ++ rest)) QuoteMode.plain cur acc =
          tokenize (cs ++ rest) QuoteMode.plain (some (cur.getD [] ++ [c])) acc from by
        simp [tokenize, hq, hs, hw]]
      rw [ih2]
      simp

theorem tokenize_quoteArg_consume (a rest : JStr) (cur : Option JStr)
    (acc : List JStr) :
    tokenize (quoteArg a ++ rest) QuoteMode.plain cur acc =
      tokenize rest QuoteMode.plain (some (cur.getD [] ++ a)) acc := by
  unfold quoteArg
  by_cases h : needsQuoting a = true
  · rw [if_pos h]
    rw [show ('"' :: (escapeChars a ++ ['"'])) ++ rest =
        '"' :: (escapeChars a ++ '"' :: rest) from by simp]
    rw [show tokenize ('"' :: (escapeChars a ++ '"' :: rest)) QuoteMode.plain cur acc =
        tokenize (escapeChars a ++ '"' :: rest) QuoteMode.double
          (some (cur.getD [])) acc from by simp [tokenize]]
    rw [tokenize_escape_consume]
  · rw [if_neg h]
    rw [Bool.not_eq_true] at h
    have hparts : ¬a.isEmpty = true ∧
        a.any (fun c => isWs c || c = '"' || c = squote || c = '\\') = false := by
      constructor
      · intro hemp
        rw [needsQuoting, hemp] at h
        simp at h
      · rcases Bool.or_eq_false_iff.mp (by rw [← needsQuoting]; exact h) with ⟨h1, h2⟩
        exact h2
    have hne : a ≠ [] := by
      intro h0
      subst h0
      exact hparts.1 rfl
    have hsafe : ∀ c ∈ a, isWs c = false ∧ c ≠ '"' ∧ c ≠ squote := by
      intro c hc
      have hthis : (isWs c || decide (c = '"') || decide (c = squote) ||
          decide (c = '\\')) = false := by
        rw [← Bool.not_eq_true]
        exact List.any_eq_false.mp hparts.2 c hc
      rcases Bool.or_eq_false_iff.mp hthis with ⟨h3, h4⟩
      rcases Bool.or_eq_false_iff.mp h3 with ⟨h5, h6⟩
      rcases Bool.or_eq_false_iff.mp h5 with ⟨h7, h8⟩
      refine ⟨h7, ?_, ?_⟩
      · simpa using h8
      · simpa using h6
    exact tokenize_plain_consume a rest cur acc hne hsafe

theorem tokenize_join : ∀ (args : List JStr) (a : JStr) (acc : List JStr),
    tokenize (joinWithSpace ((a :: args).map quoteArg)) QuoteMode.plain none acc =
      some (acc ++ a :: args) := by
  intro args
  induction args with
  | nil =>
    intro a acc
    simp only [List.map_cons, List.map_nil, joinWithSpace]
    rw [show quoteArg a = quoteArg a ++ [] from by simp]
    rw [tokenize_quoteArg_consume]
    simp [tokenize]
  | cons b rest ih =>
    intro a acc
    simp only [List.map_cons, joinWithSpace]
    rw [tokenize_quoteArg_consume]
    rw [show tokenize (' ' :: joinWithSpace (quoteArg b :: rest.map quoteArg))
        QuoteMode.plain (some (Option.getD none [] ++ a)) acc =
        tokenize (joinWithSpace (quoteArg b :: rest.map quoteArg))
          QuoteMode.plain none (acc ++ [Option.getD none [] ++ a]) from by
      simp [tokenize, isWs, (by decide : ¬(' ' : Char) = squote)]]
    have ihb := ih b (acc ++ [Option.getD none [] ++ a])
    simp only [List.map_cons] at ihb
    rw [ihb]
    simp

theorem parseSystemdExecStart_join (args : List JStr) (h : args ≠ []) :
    parseSystemdExecStart (joinWithSpace (args.map quoteArg)) = args := by
  cases args with
  | nil => exact absurd rfl h
  | cons a rest =>
    unfold parseSystemdExecStart
    rw [tokenize_join rest a []]
    simp

theorem unescapeLoop_escapeChars (v : JStr) :
    unescapeLoop false (escapeChars v) = v := by
  induction v with
  | nil => rfl
  | cons c cs ih =>
    by_cases h1 : c = '"'
    · subst h1
      simp [escapeChars, unescapeLoop, ih, (by decide : ¬('"' : Char) = 'n')]
    · by_cases h2 : c = '\\'
      · subst h2
        simp [escapeChars, unescapeLoop, ih, (by decide : ¬('\\' : Char) = 'n')]
      · by_cases h3 : c = '\n'
        · subst h3
          simp [escapeChars, unescapeLoop, ih]
        · simp [escapeChars, unescapeLoop, ih, h1, h2, h3]

theorem unescapeChars_escapeChars (v : JStr) :
    unescapeChars (escapeChars v) = v := unescapeLoop_escapeChars v

theorem needsQuoting_false_safe (a : JStr) (h : needsQuoting a = false) :
    a ≠ [] ∧ ∀ c ∈ a, isWs c = false ∧ c ≠ '"' ∧ c ≠ squote ∧ c ≠ '\\' := by
  have hparts := Bool.or_eq_false_iff.mp h
  constructor
  · intro h0
    subst h0
    simp at hparts
  · intro c hc
    have hthis : (isWs c || decide (c = '"') || decide (c = squote) ||
        decide (c = '\\')) = false := by
      rw [← Bool.not_eq_true]
      exact List.any_eq_false.mp hparts.2 c hc
    rcases Bool.or_eq_false_iff.mp hthis with ⟨h3, h4⟩
    rcases Bool.or_eq_false_iff.mp h3 with ⟨h5, h6⟩
    rcases Bool.or_eq_false_iff.mp h5 with ⟨h7, h8⟩
    refine ⟨h7, ?_, ?_, ?_⟩
    · simpa using h8
    · simpa using h6
    · simpa using h4

theorem quoteArg_ne_nil (a : JStr) : quoteArg a ≠ [] := by
  unfold quoteArg
  split
  · simp
  · rename_i h
    rw [Bool.not_eq_true] at h
    exact (needsQuoting_false_safe a h).1

theorem quoteArg_head_not_ws (a : JStr) (c : Char)
    (h : (quoteArg a).head? = some c) : isWs c = false := by
  unfold quoteArg at h
  split at h
  · simp at h
    subst h
    decide
  · rename_i hq
    rw [Bool.not_eq_true] at hq
    exact ((needsQuoting_false_safe a hq).2 c (List.mem_of_mem_head? h)).1

theorem quoteArg_last_not_ws (a : JStr) (c : Char)
    (h : (quoteArg a).getLast? = some c) : isWs c = false := by
  unfold quoteArg at h
  split at h
  · rw [show ('"' :: (escapeChars a ++ ['"'])) = ('"' :: escapeChars a) ++ ['"'] from by
      simp] at h
    rw [List.getLast?_concat] at h
    have hc : c = '"' := by
      injection h with he
      exact he.symm
    subst hc
    decide
  · rename_i hq
    rw [Bool.not_eq_true] at hq
    exact ((needsQuoting_false_safe a hq).2 c (List.mem_of_mem_getLast? h)).1

theorem joinQuoted_ne_nil (a : JStr) (args : List JStr) :
    joinWithSpace ((a :: args).map quoteArg) ≠ [] := by
  cases args with
  | nil =>
    simp only [List.map_cons, List.map_nil, joinWithSpace]
    exact quoteArg_ne_nil a
  | cons b rest =>
    simp only [List.map_cons, joinWithSpace]
    simp

theorem joinQuoted_head_not_ws (a : JStr) (args : List JStr) (c : Char)
    (h : (joinWithSpace ((a :: args).map quoteArg)).head? = some c) :
    isWs c = false := by
  cases args with
  | nil =>
    simp only [List.map_cons, List.map_nil, joinWithSpace] at h
    exact quoteArg_head_not_ws a c h
  | cons b rest =>
    simp only [List.map_cons, joinWithSpace] at h
    rw [List.head?_append_of_ne_nil _ (quoteArg_ne_nil a)] at h
    exact quoteArg_head_not_ws a c h

theorem joinQuoted_last_not_ws : ∀ (args : List JStr) (a : JStr) (c : Char),
    (joinWithSpace ((a :: args).map quoteArg)).getLast? = some c →
    isWs c = false := by
  intro args
  induction args with
  | nil =>
    intro a c h
    simp only [List.map_cons, List.map_nil, joinWithSpace] at h
    exact quoteArg_last_not_ws a c h
  | cons b rest ih =>
    intro a c h
    simp only [List.map_cons, joinWithSpace] at h
    rw [List.getLast?_append_of_ne_nil _ (by simp)] at h
    have hjoin := joinQuoted_ne_nil b rest
    rcases hd : joinWithSpace ((b :: rest).map quoteArg) with _ | ⟨d, ds⟩
    · exact absurd hd hjoin
    · simp only [List.map_cons] at hd
      rw [hd] at h
      rw [show (' ' :: d :: ds).getLast? = (d :: ds).getLast? from rfl] at h
      apply ih b c
      simp only [List.map_cons]
      rw [hd]
      exact h

theorem jsTrim_eq_self (l : JStr)
    (hh : ∀ c, l.head? = some c → isWs c = false)
    (hl : ∀ c, l.getLast? = some c → isWs c = false) : jsTrim l = l := by
  unfold jsTrim
  have h1 : l.dropWhile isWs = l := by
    cases l with
    | nil => rfl
    | cons c t =>
      rw [List.dropWhile_cons]
      rw [hh c rfl]
      simp
  rw [h1]
  apply List.rdropWhile_eq_self_iff.mpr
  intro hne
  rw [hl (l.getLast hne) (List.getLast?_eq_getLast l hne)]
  simp

theorem splitNl_append_nl (l : JStr) : '\n' ∉ l → ∀ rest : JStr,
    splitNl (l ++ '\n' :: rest) = l :: splitNl rest := by
  induction l with
  | nil =>
    intro hnl rest
    simp [splitNl]
  | cons c t ih =>
    intro hnl rest
    have hc : ¬c = '\n' := fun h => hnl (h ▸ List.mem_cons_self c t)
    have ht : '\n' ∉ t := fun h => hnl (List.mem_cons_of_mem c h)
    simp only [List.cons_append, splitNl, if_neg hc]
    have hr : t.append ('\n' :: rest) = t ++ '\n' :: rest := rfl
    rw [hr, ih ht rest]

theorem splitNl_joinNl : ∀ lines : List JStr, (∀ l ∈ lines, '\n' ∉ l) →
    lines ≠ [] → splitNl (joinNl lines) = lines := by
  intro lines
  induction lines with
  | nil =>
    intro h hne
    exact absurd rfl hne
  | cons l ls ih =>
    intro h hne
    cases ls with
    | nil =>
      simp only [joinNl]
      exact splitNl_eq_single l (h l (List.mem_cons_self l []))
    | cons l2 ls2 =>
      simp only [joinNl]
      rw [splitNl_append_nl l (h l (List.mem_cons_self l _)) _]
      rw [ih (fun x hx => h x (List.mem_cons_of_mem l hx)) (by simp)]

theorem rdropWhile_cons_not (p : Char → Bool) (c : Char) (t : JStr)
    (h : p c = false) : (c :: t).rdropWhile p = c :: t.rdropWhile p := by
  unfold List.rdropWhile
  rw [show (c :: t).reverse = t.reverse ++ [c] from by simp]
  rw [List.dropWhile_append]
  split
  · rename_i hemp
    rw [show List.dropWhile p [c] = [c] from by simp [List.dropWhile, h]]
    have : List.dropWhile p t.reverse = [] := by
      rwa [List.isEmpty_iff] at hemp
    rw [this]
    simp
  · simp

theorem jsTrim_cons_not_ws (c : Char) (t : JStr) (h : isWs c = false) :
    jsTrim (c :: t) = c :: t.rdropWhile isWs := by
  unfold jsTrim
  rw [List.dropWhile_cons, h]
  simp only [Bool.false_eq_true, if_false]
  exact rdropWhile_cons_not isWs c t h

theorem processTrimmedLine_skip (st : UnitParseState) (c : Char) (t : JStr)
    (h1 : c ≠ '#') (h2 : c ≠ 'E') (h3 : c ≠ 'W') :
    processTrimmedLine st (c :: t) = st := by
  unfold processTrimmedLine
  simp [startsWithL, stripPrefixL, Ne.symm h1, Ne.symm h2, Ne.symm h3]

theorem processUnitLine_description (st : UnitParseState) (d : JStr) :
    processUnitLine st ("Description=".toList ++ d) = st := by
  unfold processUnitLine
  rw [show "Description=".toList ++ d = 'D' :: ("escription=".toList ++ d) from rfl]
  rw [jsTrim_cons_not_ws 'D' _ (by decide)]
  exact processTrimmedLine_skip st 'D' _ (by decide) (by decide) (by decide)

theorem processTrimmedLine_execstart (st : UnitParseState) (x : JStr) :
    processTrimmedLine st ("ExecStart=".toList ++ x) =
      { st with execStart := jsTrim x } := rfl

theorem processTrimmedLine_workingdirectory (st : UnitParseState) (w : JStr) :
    processTrimmedLine st ("WorkingDirectory=".toList ++ w) =
      { st with workingDirectory := jsTrim w } := rfl

theorem processTrimmedLine_environment (st : UnitParseState) (r : JStr) :
    processTrimmedLine st ("Environment=".toList ++ r) =
      (match parseSystemdEnvAssignment (jsTrim r) with
        | some kv => { st with environment := insertEnv st.environment kv.1 kv.2 }
        | none => st) := rfl

theorem parseSystemdEnvAssignment_quoteArg (k v : JStr) (hk : k ≠ [])
    (he : '=' ∉ k) :
    parseSystemdEnvAssignment (k ++ '=' :: quoteArg v) = some (k, v) := by
  unfold parseSystemdEnvAssignment
  rw [splitFirstEq_append k (quoteArg v) he]
  have hke : k.isEmpty = false := by
    cases k with
    | nil => exact absurd rfl hk
    | cons a b => rfl
  dsimp only
  rw [if_neg (by simp [hke])]
  unfold quoteArg
  by_cases h : needsQuoting v = true
  · rw [if_pos h]
    have hcond : ('"' :: (escapeChars v ++ ['"'])).head? = some '"' ∧
        ('"' :: (escapeChars v ++ ['"'])).getLast? = some '"' ∧
        2 ≤ ('"' :: (escapeChars v ++ ['"'])).length := by
      refine ⟨rfl, ?_, ?_⟩
      · rw [show ('"' :: (escapeChars v ++ ['"'])) =
            ('"' :: escapeChars v) ++ ['"'] from by simp]
        exact List.getLast?_concat _
      · simp
    rw [if_pos hcond]
    simp only [List.tail_cons, List.dropLast_concat]
    rw [unescapeChars_escapeChars]
  · rw [if_neg h]
    rw [Bool.not_eq_true] at h
    obtain ⟨hne, hsafe⟩ := needsQuoting_false_safe v h
    have hncond : ¬(v.head? = some '"' ∧ v.getLast? = some '"' ∧ 2 ≤ v.length) := by
      intro hcon
      obtain ⟨hh, h9, h10⟩ := hcon
      cases v with
      | nil => exact hne rfl
      | cons c cs =>
        rw [List.head?_cons] at hh
        injection hh with hh2
        exact (hsafe c (List.mem_cons_self c cs)).2.1 hh2
    rw [if_neg hncond]

theorem processUnitLine_execstart (st : UnitParseState) (x : JStr) (hne : x ≠ [])
    (hh : ∀ c, x.head? = some c → isWs c = false)
    (hl : ∀ c, x.getLast? = some c → isWs c = false) :
    processUnitLine st ("ExecStart=".toList ++ x) = { st with execStart := x } := by
  unfold processUnitLine
  have htrim : jsTrim ("ExecStart=".toList ++ x) = "ExecStart=".toList ++ x := by
    apply jsTrim_eq_self
    · intro c hc
      rw [show "ExecStart=".toList ++ x = 'E' :: ("xecStart=".toList ++ x) from rfl,
        List.head?_cons] at hc
      injection hc with he
      rw [← he]
      decide
    · intro c hc
      rw [List.getLast?_append_of_ne_nil _ hne] at hc
      exact hl c hc
  rw [htrim, processTrimmedLine_execstart, jsTrim_eq_self x hh hl]

theorem processUnitLine_workingdirectory (st : UnitParseState) (w : JStr)
    (hne : w ≠ [])
    (hh : ∀ c, w.head? = some c → isWs c = false)
    (hl : ∀ c, w.getLast? = some c → isWs c = false) :
    processUnitLine st ("WorkingDirectory=".toList ++ w) =
      { st with workingDirectory := w } := by
  unfold processUnitLine
  have htrim : jsTrim ("WorkingDirectory=".toList ++ w) =
      "WorkingDirectory=".toList ++ w := by
    apply jsTrim_eq_self
    · intro c hc
      rw [show "WorkingDirectory=".toList ++ w =
          'W' :: ("orkingDirectory=".toList ++ w) from rfl, List.head?_cons] at hc
      injection hc with he
      rw [← he]
      decide
    · intro c hc
      rw [List.getLast?_append_of_ne_nil _ hne] at hc
      exact hl c hc
  rw [htrim, processTrimmedLine_workingdirectory, jsTrim_eq_self w hh hl]

theorem processUnitLine_envline (st : UnitParseState) (k v : JStr) (hk : k ≠ [])
    (hke : '=' ∉ k) (hkw : ∀ c ∈ k, isWs c = false) :
    processUnitLine st ("Environment=".toList ++ (k ++ '=' :: quoteArg v)) =
      { st with environment := insertEnv st.environment k v } := by
  unfold processUnitLine
  have hrne : k ++ '=' :: quoteArg v ≠ [] := by
    cases k with
    | nil => exact absurd rfl hk
    | cons a b => simp
  have hrh : ∀ c, (k ++ '=' :: quoteArg v).head? = some c → isWs c = false := by
    intro c hc
    rw [List.head?_append_of_ne_nil _ hk] at hc
    exact hkw c (List.mem_of_mem_head? hc)
  have hrl : ∀ c, (k ++ '=' :: quoteArg v).getLast? = some c → isWs c = false := by
    intro c hc
    rw [List.getLast?_append_of_ne_nil _ (by simp)] at hc
    rcases hq : quoteArg v with _ | ⟨d, ds⟩
    · exact absurd hq (quoteArg_ne_nil v)
    · rw [hq] at hc
      rw [show ('=' :: d :: ds).getLast? = (d :: ds).getLast? from rfl] at hc
      apply quoteArg_last_not_ws v c
      rw [hq]
      exact hc
  have htrim : jsTrim ("Environment=".toList ++ (k ++ '=' :: quoteArg v)) =
      "Environment=".toList ++ (k ++ '=' :: quoteArg v) := by
    apply jsTrim_eq_self
    · intro c hc
      rw [show "Environment=".toList ++ (k ++ '=' :: quoteArg v) =
          'E' :: ("nvironment=".toList ++ (k ++ '=' :: quoteArg v)) from rfl,
        List.head?_cons] at hc
      injection hc with he
      rw [← he]
      decide
    · intro c hc
      rw [List.getLast?_append_of_ne_nil _ hrne] at hc
      exact hrl c hc
  rw [htrim, processTrimmedLine_environment]
  have htrim2 : jsTrim (k ++ '=' :: quoteArg v) = k ++ '=' :: quoteArg v :=
    jsTrim_eq_self _ hrh hrl
  rw [htrim2, parseSystemdEnvAssignment_quoteArg k v hk hke]

theorem processUnitLine_blank (st : UnitParseState) :
    processUnitLine st [] = st := rfl

theorem processUnitLine_unitHeader (st : UnitParseState) :
    processUnitLine st ("[Unit]".toList) = st := rfl

theorem processUnitLine_serviceHeader (st : UnitParseState) :
    processUnitLine st ("[Service]".toList) = st := rfl

theorem processUnitLine_installHeader (st : UnitParseState) :
    processUnitLine st ("[Install]".toList) = st := rfl

theorem processUnitLine_wantedBy (st : UnitParseState) :
    processUnitLine st ("WantedBy=default.target".toList) = st := rfl

theorem insertEnv_fresh : ∀ (l : List (JStr × JStr)) (k v : JStr),
    (∀ kv ∈ l, kv.1 ≠ k) → insertEnv l k v = l ++ [(k, v)] := by
  intro l
  induction l with
  | nil => intro k v h; rfl
  | cons kv0 rest ih =>
    intro k v h
    obtain ⟨k0, v0⟩ := kv0
    unfold insertEnv
    rw [if_neg (h (k0, v0) (List.mem_cons_self _ _))]
    rw [ih k v (fun kv hkv => h kv (List.mem_cons_of_mem _ hkv))]
    simp

theorem nl_not_in_escapeChars (v : JStr) : '\n' ∉ escapeChars v := by
  induction v with
  | nil => simp [escapeChars]
  | cons c cs ih =>
    intro hmem
    unfold escapeChars at hmem
    rcases List.mem_append.mp hmem with h | h
    · by_cases h1 : c = '"'
      · rw [if_pos h1] at h
        revert h
        decide
      · by_cases h2 : c = '\\'
        · rw [if_neg h1, if_pos h2] at h
          revert h
          decide
        · by_cases h3 : c = '\n'
          · rw [if_neg h1, if_neg h2, if_pos h3] at h
            revert h
            decide
          · rw [if_neg h1, if_neg h2, if_neg h3] at h
            rw [List.mem_singleton] at h
            exact h3 h.symm
    · exact ih h

theorem nl_not_in_quoteArg (a : JStr) : '\n' ∉ quoteArg a := by
  unfold quoteArg
  split
  · intro hmem
    rcases List.mem_cons.mp hmem with h | h
    · exact absurd h (by decide)
    · rcases List.mem_append.mp h with h | h
      · exact nl_not_in_escapeChars a h
      · revert h
        decide
  · rename_i hq
    rw [Bool.not_eq_true] at hq
    intro hmem
    have := ((needsQuoting_false_safe a hq).2 '\n' hmem).1
    revert this
    decide

theorem nl_not_in_joinQuoted : ∀ (args : List JStr) (a : JStr),
    '\n' ∉ joinWithSpace ((a :: args).map quoteArg) := by
  intro args
  induction args with
  | nil =>
    intro a
    simp only [List.map_cons, List.map_nil, joinWithSpace]
    exact nl_not_in_quoteArg a
  | cons b rest ih =>
    intro a
    simp only [List.map_cons, joinWithSpace]
    intro hmem
    rcases List.mem_append.mp hmem with h | h
    · exact nl_not_in_quoteArg a h
    · rcases List.mem_cons.mp h with h | h
      · exact absurd h (by decide)
      · have := ih b
        simp only [List.map_cons] at this
        exact this h

theorem foldl_env_lines : ∀ (ents : List (JStr × JStr)) (st : UnitParseState),
    (∀ kv ∈ ents, kv.1 ≠ [] ∧ '=' ∉ kv.1 ∧ ∀ c ∈ kv.1, isWs c = false) →
    (∀ kv ∈ ents, ∀ kv0 ∈ st.environment, kv0.1 ≠ kv.1) →
    (ents.map Prod.fst).Nodup →
    List.foldl processUnitLine st
        (ents.map (fun kv => "Environment=".toList ++ (kv.1 ++ '=' :: quoteArg kv.2))) =
      { st with environment := st.environment ++ ents } := by
  intro ents
  induction ents with
  | nil =>
    intro st hwf hfresh hnd
    simp
  | cons kv rest ih =>
    intro st hwf hfresh hnd
    obtain ⟨k, v⟩ := kv
    obtain ⟨hk, hke, hkw⟩ := hwf (k, v) (List.mem_cons_self _ _)
    simp only [List.map_cons, List.foldl_cons]
    rw [processUnitLine_envline st k v hk hke hkw]
    rw [insertEnv_fresh st.environment k v
      (fun kv0 hkv0 => hfresh (k, v) (List.mem_cons_self _ _) kv0 hkv0)]
    rw [List.map_cons, List.nodup_cons] at hnd
    rw [ih { st with environment := st.environment ++ [(k, v)] }
      (fun kv2 h2 => hwf kv2 (List.mem_cons_of_mem _ h2))
      ?fresh2 hnd.2]
    · simp
    case fresh2 =>
      intro kv2 h2 kv0 h0
      rcases List.mem_append.mp h0 with h0 | h0
      · exact hfresh kv2 (List.mem_cons_of_mem _ h2) kv0 h0
      · rw [List.mem_singleton] at h0
        subst h0
        intro heq
        apply hnd.1
        rw [heq]
        exact List.mem_map_of_mem Prod.fst h2

theorem parseUnitContent_build (description : JStr) (a : JStr) (args0 : List JStr)
    (wd : Option JStr) (env : List (JStr × JStr))
    (hdesc : '\n' ∉ description)
    (hwd : ∀ w, wd = some w → w ≠ [] ∧ '\n' ∉ w ∧
      (∀ c, w.head? = some c → isWs c = false) ∧
      (∀ c, w.getLast? = some c → isWs c = false))
    (henv : ∀ kv ∈ env, kv.1 ≠ [] ∧ '=' ∉ kv.1 ∧ ∀ c ∈ kv.1, isWs c = false)
    (hnodup : (env.map Prod.fst).Nodup) :
    parseUnitContent (buildSystemdUnit description (a :: args0) wd env) =
      { execStart := joinWithSpace ((a :: args0).map quoteArg)
        workingDirectory := (match wd with | some w => w | none => [])
        environment := env } := by
  have hjq_ne := joinQuoted_ne_nil a args0
  have hjq_h := joinQuoted_head_not_ws a args0
  have hjq_l := fun c h => joinQuoted_last_not_ws args0 a c h
  have henvline_nl : ∀ l ∈ env.map
      (fun kv => "Environment=".toList ++ (kv.1 ++ '=' :: quoteArg kv.2)),
      '\n' ∉ l := by
    intro l hl
    rw [List.mem_map] at hl
    obtain ⟨kv, hkv, rfl⟩ := hl
    intro hmem
    rcases List.mem_append.mp hmem with h | h
    · revert h; decide
    · rcases List.mem_append.mp h with h | h
      · have := ((henv kv hkv).2.2) '\n' h
        revert this; decide
      · rcases List.mem_cons.mp h with h | h
        · exact absurd h (by decide)
        · exact nl_not_in_quoteArg kv.2 h
  unfold parseUnitContent buildSystemdUnit
  cases wd with
  | none =>
    rw [splitNl_joinNl _ ?nonl ?nonempty]
    case nonl =>
      intro l hl
      simp only [List.nil_append, List.cons_append, List.append_nil,
        List.mem_cons, List.mem_append] at hl
      rcases hl with rfl | rfl | rfl | rfl | rfl | hl | rfl | rfl | rfl | rfl | hl0
      · decide
      · intro hmem
        rcases List.mem_append.mp hmem with h | h
        · revert h; decide
        · exact hdesc h
      · simp
      · decide
      · intro hmem
        rcases List.mem_append.mp hmem with h | h
        · revert h; decide
        · exact nl_not_in_joinQuoted args0 a h
      · exact henvline_nl _ hl
      · simp
      · decide
      · decide
      · simp
      · exact absurd hl0 (List.not_mem_nil l)
    case nonempty => simp
    simp only [List.nil_append, List.cons_append, List.append_nil]
    simp only [List.foldl_cons]
    rw [processUnitLine_unitHeader, processUnitLine_description,
      processUnitLine_blank, processUnitLine_serviceHeader]
    rw [processUnitLine_execstart _ _ hjq_ne hjq_h hjq_l]
    rw [List.foldl_append]
    rw [foldl_env_lines env _ henv ?fresh hnodup]
    case fresh =>
      intro kv hkv kv0 h0
      exact absurd h0 (List.not_mem_nil kv0)
    simp only [List.foldl_cons, List.foldl_nil]
    rw [processUnitLine_blank, processUnitLine_installHeader,
      processUnitLine_wantedBy, processUnitLine_blank]
    simp
  | some w =>
    obtain ⟨hwne, hwnl, hwh, hwl⟩ := hwd w rfl
    rw [splitNl_joinNl _ ?nonl2 ?nonempty2]
    case nonl2 =>
      intro l hl
      simp only [List.nil_append, List.cons_append, List.append_nil,
        List.singleton_append, List.mem_cons, List.mem_append] at hl
      rcases hl with rfl | rfl | rfl | rfl | rfl | rfl | hl | rfl | rfl | rfl | rfl | hl0
      · decide
      · intro hmem
        rcases List.mem_append.mp hmem with h | h
        · revert h; decide
        · exact hdesc h
      · simp
      · decide
      · intro hmem
        rcases List.mem_append.mp hmem with h | h
        · revert h; decide
        · exact nl_not_in_joinQuoted args0 a h
      · intro hmem
        rcases List.mem_append.mp hmem with h | h
        · revert h; decide
        · exact hwnl h
      · exact henvline_nl _ hl
      · simp
      · decide
      · decide
      · simp
      · exact absurd hl0 (List.not_mem_nil l)
    case nonempty2 => simp
    simp only [List.nil_append, List.cons_append, List.append_nil,
      List.singleton_append]
    simp only [List.foldl_cons]
    rw [processUnitLine_unitHeader, processUnitLine_description,
      processUnitLine_blank, processUnitLine_serviceHeader]
    rw [processUnitLine_execstart _ _ hjq_ne hjq_h hjq_l]
    rw [processUnitLine_workingdirectory _ _ hwne hwh hwl]
    rw [List.foldl_append]
    rw [foldl_env_lines env _ henv ?fresh3 hnodup]
    case fresh3 =>
      intro kv hkv kv0 h0
      exact absurd h0 (List.not_mem_nil kv0)
    simp only [List.foldl_cons, List.foldl_nil]
    rw [processUnitLine_blank, processUnitLine_installHeader,
      processUnitLine_wantedBy, processUnitLine_blank]
    simp

/-- C1: decoding the unit-file text produced by encoding a service
command config (buildSystemdUnit, then the ExecStart, WorkingDirectory
and Environment scan of readSystemdServiceExecStart) returns the
original config: the program arguments and environment values are
arbitrary strings (whitespace, quotes, backslashes and newlines
included), the environment keys are systemd-style names (non-empty,
without whitespace or equals signs, pairwise distinct), the working
directory when present is a non-empty trim-stable single-line string,
and the description is a single line; sourcePath is set to the unit
path and the description does not take part in the comparison. -/
theorem unit_config_roundtrip (unitPath description : JStr) (args : List JStr)
    (wd : Option JStr) (env : List (JStr × JStr))
    (hdesc : '\n' ∉ description)
    (hargs : args ≠ [])
    (hwd : ∀ w, wd = some w → w ≠ [] ∧ '\n' ∉ w ∧
      (∀ c, w.head? = some c → isWs c = false) ∧
      (∀ c, w.getLast? = some c → isWs c = false))
    (henv : ∀ kv ∈ env, kv.1 ≠ [] ∧ '=' ∉ kv.1 ∧ ∀ c ∈ kv.1, isWs c = false)
    (hnodup : (env.map Prod.fst).Nodup) :
    readSystemdServiceExecStart unitPath
        (.ok (buildSystemdUnit description args wd env)) =
      some { programArguments := args
             workingDirectory := wd
             environment := env
             sourcePath := some unitPath } := by
  cases args with
  | nil => exact absurd rfl hargs
  | cons a args0 =>
    unfold readSystemdServiceExecStart
    dsimp only
    rw [parseUnitContent_build description a args0 wd env hdesc hwd henv hnodup]
    dsimp only
    have hne := joinQuoted_ne_nil a args0
    have hemp : (joinWithSpace ((a :: args0).map quoteArg)).isEmpty = false := by
      rcases hji : joinWithSpace ((a :: args0).map quoteArg) with _ | ⟨c, cs⟩
      · exact absurd hji hne
      · rfl
    rw [hemp]
    simp only [Bool.false_eq_true, if_false]
    rw [parseSystemdExecStart_join (a :: args0) (by simp)]
    cases wd with
    | none => simp
    | some w =>
      obtain ⟨hwne, hwnl, hwh, hwl⟩ := hwd w rfl
      have hwemp : w.isEmpty = false := by
        cases w with
        | nil => exact absurd rfl hwne
        | cons c cs => rfl
      simp [hwemp]

theorem unit_config_roundtrip_witness :
    readSystemdServiceExecStart ("/home/u/.config/systemd/user/openclaw-gateway.service".toList)
        (.ok (buildSystemdUnit ("OpenClaw Gateway".toList)
          ["/usr/bin/node".toList, "my server.js".toList, "--name=\"cl aw\"".toList]
          (some ("/srv/app".toList))
          [("NODE_ENV".toList, "prod uction".toList),
           ("GREETING".toList, "say \"hi\"\nplease".toList)])) =
      some { programArguments :=
               ["/usr/bin/node".toList, "my server.js".toList, "--name=\"cl aw\"".toList]
             workingDirectory := some ("/srv/app".toList)
             environment :=
               [("NODE_ENV".toList, "prod uction".toList),
                ("GREETING".toList, "say \"hi\"\nplease".toList)]
             sourcePath :=
               some ("/home/u/.config/systemd/user/openclaw-gateway.service".toList) } := by
  apply unit_config_roundtrip
  · decide
  · decide
  · intro w hw
    injection hw with hw2
    subst hw2
    refine ⟨by decide, by decide, ?_, ?_⟩
    · intro c hc
      have hc2 : c = '/' := by
        rw [show ("/srv/app".toList).head? = some '/' from rfl] at hc
        injection hc with hc3
        exact hc3.symm
      subst hc2
      decide
    · intro c hc
      have hc2 : c = 'p' := by
        rw [show ("/srv/app".toList).getLast? = some 'p' from rfl] at hc
        injection hc with hc3
        exact hc3.symm
      subst hc2
      decide
  · decide
  · decide
